import Mathlib

/-!
Verification of the rules-resolution and game-state engine of an
AI-narrated tabletop-RPG client.  The definitions below are shallow
embeddings of the TypeScript source: pure fragments become Lean
functions, component state becomes explicit state records, JavaScript
real-number division appears as rational division, `Math.random`-driven
draws become explicit draw parameters, and asynchronous dice-modal
results become an explicit oracle list that is consumed in order.
-/

namespace TRPG

/-! ## Data model (types.ts) -/

/-- The eight attributes of a character (`Character.stats` in types.ts),
in the source's declaration order STR, CON, POW, DEX, APP, SIZ, INT, EDU. -/
structure Stats where
  str : Nat
  con : Nat
  pow : Nat
  dex : Nat
  app : Nat
  siz : Nat
  intel : Nat
  edu : Nat
deriving DecidableEq, Repr

/-- Names of the eight attributes, used as keys into `Character.stats`. -/
inductive StatName
  | STR | CON | POW | DEX | APP | SIZ | INT | EDU
deriving DecidableEq, Repr

/-- Read one attribute (the TS expression `character.stats[stat]`). -/
def Stats.get (s : Stats) : StatName → Nat
  | .STR => s.str
  | .CON => s.con
  | .POW => s.pow
  | .DEX => s.dex
  | .APP => s.app
  | .SIZ => s.siz
  | .INT => s.intel
  | .EDU => s.edu

/-- Write one attribute (the TS spread `{ ...char.stats, [statName]: value }`). -/
def Stats.set (s : Stats) : StatName → Nat → Stats
  | .STR, v => { s with str := v }
  | .CON, v => { s with con := v }
  | .POW, v => { s with pow := v }
  | .DEX, v => { s with dex := v }
  | .APP, v => { s with app := v }
  | .SIZ, v => { s with siz := v }
  | .INT, v => { s with intel := v }
  | .EDU, v => { s with edu := v }

/-- A current/max resource pair (hp, mp or san in types.ts). -/
structure Resource where
  current : Nat
  max : Nat
deriving DecidableEq, Repr

/-- The two madness kinds of `Character.madness.type`. -/
inductive MadnessType
  | temporary
  | indefinite
deriving DecidableEq, Repr

/-- The `Character.madness` record: nullable type tag, a symptom
description, and (for temporary madness only) a round counter. -/
structure Madness where
  type : Option MadnessType
  description : String
  duration : Option Nat
deriving DecidableEq, Repr

/-- The gameplay-relevant fields of a `Character` (types.ts); the skills
object is embedded as an association list with JS-object key semantics. -/
structure Character where
  id : String
  name : String
  stats : Stats
  hp : Resource
  mp : Resource
  san : Resource
  skills : List (String × Nat)
  madness : Madness
deriving DecidableEq, Repr

/-- Key lookup in a JS object embedded as an association list
(the TS expression `obj[key]`, `undefined` becoming `none`). -/
def lookupAssoc {α : Type} (l : List (String × α)) (key : String) : Option α :=
  (l.find? (fun p => p.1 == key)).map (fun p => p.2)

/-- Key update in a JS object embedded as an association list (the TS
spread `{ ...obj, [key]: v }`): replace the binding if the key is
present, otherwise append it. -/
def updateAssoc {α : Type} : List (String × α) → String → α → List (String × α)
  | [], key, v => [(key, v)]
  | p :: rest, key, v =>
      if p.1 == key then (key, v) :: rest else p :: updateAssoc rest key v

theorem lookupAssoc_updateAssoc_self {α : Type} (l : List (String × α)) (k : String) (v : α) :
    lookupAssoc (updateAssoc l k v) k = some v := by
  induction l with
  | nil => simp [lookupAssoc, updateAssoc]
  | cons p rest ih =>
      by_cases h : p.1 = k
      · simp [lookupAssoc, updateAssoc, h]
      · simp only [updateAssoc, beq_iff_eq, h, if_false]
        simpa [lookupAssoc, h] using ih

theorem lookupAssoc_updateAssoc_ne {α : Type} (l : List (String × α)) (k k' : String) (v : α)
    (h : k' ≠ k) : lookupAssoc (updateAssoc l k v) k' = lookupAssoc l k' := by
  induction l with
  | nil => simp [lookupAssoc, updateAssoc, Ne.symm h]
  | cons p rest ih =>
      by_cases hp : p.1 = k
      · have hpk' : ¬ p.1 = k' := by rw [hp]; exact fun hh => h hh.symm
        simp [lookupAssoc, updateAssoc, hp, hpk', Ne.symm h]
      · by_cases hp' : p.1 = k'
        · simp [lookupAssoc, updateAssoc, hp, hp', h]
        · simp only [updateAssoc, beq_iff_eq, hp, if_false]
          simpa [lookupAssoc, hp'] using ih

/-! ## Check Resolution Engine (GamePlayScreen.tsx)

The tier chain appears verbatim three times in the source: inside
`handleSkillCheck` (lines 389-396), `handleStatCheck` (lines 441-448)
and `handlePushRoll` (lines 519-526).  Each copy is embedded separately
below; JS real-number division is embedded as division in `ℚ`. -/

/-- Degree-of-success tiers; the source represents them by the strings
"クリティカル (01)", "イクストリーム成功", "ハード成功",
"レギュラー成功", "ファンブル (00)", "ファンブル" and "失敗". -/
inductive Tier
  | critical
  | extreme
  | hard
  | regular
  | fumble00
  | fumble
  | failure
deriving DecidableEq, Repr

/-- Tier chain of `handleSkillCheck` (GamePlayScreen.tsx lines 389-396);
`skillValue / 5` and `skillValue / 2` are JS real division. -/
def skillCheckTier (diceRoll skillValue : Nat) : Tier :=
  if diceRoll ≤ 1 then .critical
  else if (diceRoll : ℚ) ≤ (skillValue : ℚ) / 5 then .extreme
  else if (diceRoll : ℚ) ≤ (skillValue : ℚ) / 2 then .hard
  else if diceRoll ≤ skillValue then .regular
  else if diceRoll ≥ 100 then .fumble00
  else if diceRoll ≥ 96 ∧ skillValue < 50 then .fumble
  else .failure

/-- Tier chain of `handleStatCheck` (GamePlayScreen.tsx lines 441-448). -/
def statCheckTier (diceRoll targetValue : Nat) : Tier :=
  if diceRoll ≤ 1 then .critical
  else if (diceRoll : ℚ) ≤ (targetValue : ℚ) / 5 then .extreme
  else if (diceRoll : ℚ) ≤ (targetValue : ℚ) / 2 then .hard
  else if diceRoll ≤ targetValue then .regular
  else if diceRoll ≥ 100 then .fumble00
  else if diceRoll ≥ 96 ∧ targetValue < 50 then .fumble
  else .failure

/-- Tier chain of `handlePushRoll` (GamePlayScreen.tsx lines 519-526),
applied to the stored target `value` of the failed check. -/
def pushRollTier (diceRoll value : Nat) : Tier :=
  if diceRoll ≤ 1 then .critical
  else if (diceRoll : ℚ) ≤ (value : ℚ) / 5 then .extreme
  else if (diceRoll : ℚ) ≤ (value : ℚ) / 2 then .hard
  else if diceRoll ≤ value then .regular
  else if diceRoll ≥ 100 then .fumble00
  else if diceRoll ≥ 96 ∧ value < 50 then .fumble
  else .failure

/-- Success predicate shared by the three call sites:
`result !== '失敗' && result !== 'ファンブル' && result !== 'ファンブル (00)'`. -/
def isSuccess (t : Tier) : Bool :=
  !(t == .failure || t == .fumble || t == .fumble00)

/-- Target value of a stat check (`handleStatCheck` lines 431-432):
`character.stats[stat] * multiplier` with default multiplier 5. -/
def statCheckTarget (stats : Stats) (stat : StatName) (multiplier : Option Nat) : Nat :=
  stats.get stat * multiplier.getD 5

/-- One tier function, written from the spec's description of the Check
Resolution Engine (spec §4.3): the same precedence order with
`floor(target/5)` and `floor(target/2)` as natural-number division. -/
def specResolve (roll target : Nat) : Tier :=
  if roll ≤ 1 then .critical
  else if roll ≤ target / 5 then .extreme
  else if roll ≤ target / 2 then .hard
  else if roll ≤ target then .regular
  else if 100 ≤ roll then .fumble00
  else if 96 ≤ roll ∧ target < 50 then .fumble
  else .failure

theorem rat_le_div5_iff (r t : Nat) : ((r : ℚ) ≤ (t : ℚ) / 5) ↔ r ≤ t / 5 := by
  rw [le_div_iff₀ (by norm_num : (0 : ℚ) < 5)]
  rw [show ((r : ℚ) * 5 = ((r * 5 : Nat) : ℚ)) by push_cast; ring]
  rw [Nat.cast_le]
  exact (Nat.le_div_iff_mul_le (by norm_num)).symm

theorem rat_le_div2_iff (r t : Nat) : ((r : ℚ) ≤ (t : ℚ) / 2) ↔ r ≤ t / 2 := by
  rw [le_div_iff₀ (by norm_num : (0 : ℚ) < 2)]
  rw [show ((r : ℚ) * 2 = ((r * 2 : Nat) : ℚ)) by push_cast; ring]
  rw [Nat.cast_le]
  exact (Nat.le_div_iff_mul_le (by norm_num)).symm

theorem skillCheckTier_eq_specResolve (roll target : Nat) :
    skillCheckTier roll target = specResolve roll target := by
  unfold skillCheckTier specResolve
  simp only [rat_le_div5_iff, rat_le_div2_iff, ge_iff_le]

theorem statCheckTier_eq_specResolve (roll target : Nat) :
    statCheckTier roll target = specResolve roll target := by
  unfold statCheckTier specResolve
  simp only [rat_le_div5_iff, rat_le_div2_iff, ge_iff_le]

theorem pushRollTier_eq_specResolve (roll target : Nat) :
    pushRollTier roll target = specResolve roll target := by
  unfold pushRollTier specResolve
  simp only [rat_le_div5_iff, rat_le_div2_iff, ge_iff_le]

/-- C2: one tier function resolves every percentile check, in the stated
precedence order with floored divisions; skill checks, stat checks
(target = stat × multiplier, default 5) and push-rolls all use the
identical rule, and success is any tier except Failure, Fumble and
Fumble(00). -/
theorem C2_check_resolution_engine :
    (∀ roll target, skillCheckTier roll target = specResolve roll target) ∧
    (∀ roll target, statCheckTier roll target = specResolve roll target) ∧
    (∀ roll target, pushRollTier roll target = specResolve roll target) ∧
    (∀ stats stat, statCheckTarget stats stat none = stats.get stat * 5) ∧
    (∀ stats stat m, statCheckTarget stats stat (some m) = stats.get stat * m) ∧
    (∀ t, isSuccess t = true ↔ t ≠ .failure ∧ t ≠ .fumble ∧ t ≠ .fumble00) := by
  refine ⟨skillCheckTier_eq_specResolve, statCheckTier_eq_specResolve,
    pushRollTier_eq_specResolve, fun _ _ => rfl, fun _ _ _ => rfl, fun t => ?_⟩
  cases t <;> simp [isSuccess]

theorem specResolve_roll100 (t : Nat) :
    specResolve 100 t =
      if 500 ≤ t then .extreme
      else if 200 ≤ t then .hard
      else if 100 ≤ t then .regular
      else .fumble00 := by
  unfold specResolve
  split_ifs <;> first | rfl | (exfalso; omega)

/-- C3 counterexample: a stat-check target of 100 (e.g. POW 20 at the
default ×5 multiplier) resolves a roll of 100 as a Regular success, not
as Fumble(00): the `roll ≤ target` branch precedes the `roll ≥ 100`
branch. -/
theorem C3_counterexample :
    statCheckTarget ⟨10, 10, 20, 10, 10, 10, 10, 10⟩ .POW none = 100 ∧
    statCheckTier 100 100 = Tier.regular ∧
    Tier.regular ≠ Tier.fumble00 := by
  refine ⟨rfl, ?_, by decide⟩
  rw [statCheckTier_eq_specResolve, specResolve_roll100]
  decide

/-- C3 amended: a percentile roll of 100 resolves to Fumble(00) exactly
when the target is below 100; for targets of 100 or more the roll
satisfies `roll ≤ target` and resolves to a success tier instead.  This
holds identically for skill checks and stat checks. -/
theorem C3_roll100_fumble_iff (target : Nat) :
    (skillCheckTier 100 target = Tier.fumble00 ↔ target < 100) ∧
    (statCheckTier 100 target = Tier.fumble00 ↔ target < 100) ∧
    (isSuccess (skillCheckTier 100 target) = true ↔ 100 ≤ target) := by
  rw [skillCheckTier_eq_specResolve, statCheckTier_eq_specResolve, specResolve_roll100]
  refine ⟨?_, ?_, ?_⟩
  · split_ifs <;> simp [isSuccess] <;> omega
  · split_ifs <;> simp [isSuccess] <;> omega
  · split_ifs <;> simp [isSuccess] <;> omega

/-! ## Randomization primitive (utils/dice.ts) and fixed-value handling

`parseAndRoll` matches the unanchored regex `(\d+)?d(\d+)([+-]\d+)?`
against the sanitized string and rolls `numDice` dice.  The
`Math.random`-driven die results are supplied by an explicit oracle
list, consumed in order. -/

/-- Sanitization step of `parseAndRoll`:
`notation.toLowerCase().replace(/\s+/g, '')`, as a character list. -/
def sanitizeChars (s : String) : List Char :=
  (s.toList.map Char.toLower).filter (fun c => !c.isWhitespace)

/-- Decimal value of a digit run (JS `parseInt` on a digit string). -/
def charsToNat (ds : List Char) : Nat :=
  ds.foldl (fun a c => a * 10 + (c.toNat - 48)) 0

/-- Attempt to match `(\d+)?d(\d+)([+-]\d+)?` at the head of the
character list, returning (numDice, numSides, modifier); the optional
leading count defaults to 1, the optional modifier to 0. -/
def matchDiceAt (cs : List Char) : Option (Nat × Nat × Int) :=
  let ds := cs.takeWhile Char.isDigit
  match cs.dropWhile Char.isDigit with
  | 'd' :: rest2 =>
    let ss := rest2.takeWhile Char.isDigit
    if ss.isEmpty then none
    else
      let modifier : Int :=
        match rest2.dropWhile Char.isDigit with
        | '+' :: ms =>
            let mds := ms.takeWhile Char.isDigit
            if mds.isEmpty then 0 else (charsToNat mds : Int)
        | '-' :: ms =>
            let mds := ms.takeWhile Char.isDigit
            if mds.isEmpty then 0 else -(charsToNat mds : Int)
        | _ => 0
      some (if ds.isEmpty then 1 else charsToNat ds, charsToNat ss, modifier)
  | _ => none

/-- Leftmost match of the dice pattern, like `String.prototype.match`
with a non-global regex: try each start position from the left. -/
def findDiceMatch : List Char → Option (Nat × Nat × Int)
  | [] => none
  | c :: rest =>
    match matchDiceAt (c :: rest) with
    | some m => some m
    | none => findDiceMatch rest

/-- The dice-notation evaluator `parseAndRoll` (utils/dice.ts lines
375-391): no match evaluates to 0, otherwise the matched count of die
results is drawn from the oracle and the signed modifier added.  Returns
the total together with the unconsumed oracle. -/
def parseAndRoll (rolls : List Nat) (s : String) : Int × List Nat :=
  match findDiceMatch (sanitizeChars s) with
  | none => (0, rolls)
  | some (numDice, _, modifier) =>
      (((rolls.take numDice).sum : Int) + modifier, rolls.drop numDice)

/-- JS `String.prototype.trim`: drop whitespace from both ends,
expressed over the character list. -/
def trimChars (s : String) : List Char :=
  ((s.toList.dropWhile Char.isWhitespace).reverse.dropWhile Char.isWhitespace).reverse

/-- The helper `isFixedValue` (GamePlayScreen.tsx lines 547-553):
`/^\d+$/.test(notation.trim())`. -/
def isFixedValue (s : String) : Bool :=
  let trimmed := trimChars s
  !trimmed.isEmpty && trimmed.all Char.isDigit

/-- The helper `parseFixedOrRoll` (GamePlayScreen.tsx lines 556-572):
a fixed value parses directly (JS `parseInt(trimmed, 10)`), `-1` signals
that a dice roll is needed. -/
def parseFixedOrRoll (s : String) : Int :=
  if isFixedValue s then (charsToNat (trimChars s) : Int) else -1

/-- Evaluation of a sanity-loss notation as `handleSanityCheck` performs
it: when `parseFixedOrRoll` recognizes a fixed value it is used directly
and no dice are rolled; otherwise the notation goes to the dice modal,
which evaluates it once with `parseAndRoll`. -/
def evalSanLossNotation (rolls : List Nat) (s : String) : Int × List Nat :=
  let fixed := parseFixedOrRoll s
  if fixed ≥ 0 then (fixed, rolls)
  else parseAndRoll rolls s

/-- C8: for every notation string consumed by the loss evaluator, a bare
integer with no 'd' evaluates to that fixed value — consuming no dice —
and any notation the dice pattern does not recognize evaluates to 0
(in particular `parseAndRoll` itself returns 0 on such input). -/
theorem C8_notation_evaluation (s : String) (rolls : List Nat) :
    (isFixedValue s = true →
        evalSanLossNotation rolls s = ((charsToNat (trimChars s) : Int), rolls)) ∧
    (isFixedValue s = false → findDiceMatch (sanitizeChars s) = none →
        evalSanLossNotation rolls s = (0, rolls)) ∧
    (findDiceMatch (sanitizeChars s) = none → parseAndRoll rolls s = (0, rolls)) := by
  refine ⟨fun hf => ?_, fun hnf hnm => ?_, fun hnm => ?_⟩
  · simp [evalSanLossNotation, parseFixedOrRoll, hf, Int.natCast_nonneg]
  · simp [evalSanLossNotation, parseFixedOrRoll, hnf, parseAndRoll, hnm]
  · simp [parseAndRoll, hnm]

/-- C8 witness: "7" is a bare integer and evaluates to the fixed value 7
with the dice oracle untouched; "abc" matches no dice pattern and
evaluates to 0. -/
theorem C8_notation_evaluation_witness :
    isFixedValue "7" = true ∧
    evalSanLossNotation [3, 4] "7" = ((7 : Int), [3, 4]) ∧
    isFixedValue "abc" = false ∧
    findDiceMatch (sanitizeChars "abc") = none ∧
    evalSanLossNotation [3, 4] "abc" = (0, [3, 4]) ∧
    parseAndRoll [3, 4] "abc" = (0, [3, 4]) := by
  have h7 : isFixedValue "7" = true := by decide
  have habc : isFixedValue "abc" = false := by decide
  have hm : findDiceMatch (sanitizeChars "abc") = none := by decide
  have h7v : (charsToNat (trimChars "7") : Int) = 7 := by decide
  exact ⟨h7, h7v ▸ (C8_notation_evaluation "7" [3, 4]).1 h7, habc, hm,
    (C8_notation_evaluation "abc" [3, 4]).2.1 habc hm,
    (C8_notation_evaluation "abc" [3, 4]).2.2 hm⟩

/-! ## Sanity & Madness state machine (GamePlayScreen.tsx lines 14-53) -/

/-- The fixed temporary-madness symptom list (`TEMPORARY_MADNESS_SYMPTOMS`). -/
def temporaryMadnessSymptoms : List String :=
  ["恐怖で震えが止まらない（全ての行動に-20のペナルティ）",
   "パニック状態となり、その場から逃げ出そうとする",
   "恐怖のあまり失神し、1d10ラウンドの間行動不能",
   "ヒステリック状態となり、大声で叫び続ける",
   "硬直状態となり、1d6ラウンドの間身動きが取れない",
   "記憶が混乱し、直前の出来事を忘れてしまう",
   "幻覚を見始め、存在しないものに反応する",
   "極度の疑心暗鬼となり、仲間を信用できなくなる"]

/-- The fixed indefinite-madness symptom list (`INDEFINITE_MADNESS_SYMPTOMS`). -/
def indefiniteMadnessSymptoms : List String :=
  ["恐怖症：特定の対象に対する極度の恐怖（技能判定-30）",
   "強迫観念：特定の行動を繰り返さずにはいられない",
   "妄想症：現実と妄想の区別がつかなくなる",
   "健忘症：重要な記憶の一部を失う",
   "人格解離：別の人格が現れることがある",
   "躁鬱状態：極端な気分の変動に悩まされる",
   "被害妄想：常に誰かに狙われていると感じる",
   "幻聴・幻覚：存在しない声や映像を知覚する"]

/-- Result record of `checkForMadness` (nullable type tag, symptom
description, optional duration). -/
structure MadnessCheckResult where
  type : Option MadnessType
  description : String
  duration : Option Nat
deriving DecidableEq, Repr

/-- Indefinite-madness threshold, `Math.ceil(character.san.max * 0.2)`
(GamePlayScreen.tsx line 39).  For IEEE-754 doubles and every integer
max in the reachable range the float expression equals the exact ceiling
of max/5 (0.2 rounds to (2^54+1)/(5·2^54), so 5k·0.2 rounds back to
exactly k), embedded as natural-number ceiling division. -/
def indefiniteMadnessThreshold (sanMax : Nat) : Nat :=
  (sanMax + 4) / 5

/-- `checkForMadness` (GamePlayScreen.tsx lines 37-53).  The
`Math.random()` draws are explicit parameters: `symptomDraw` is
`Math.floor(Math.random() * SYMPTOMS.length)` and `durationDraw` is
`Math.floor(Math.random() * 6)`, making the duration
`durationDraw + 1` rounds. -/
def checkForMadness (character : Character) (sanLoss : Int)
    (symptomDraw : Fin 8) (durationDraw : Fin 6) : MadnessCheckResult :=
  let threshold := indefiniteMadnessThreshold character.san.max
  if sanLoss ≥ (threshold : Int) then
    { type := some .indefinite,
      description := indefiniteMadnessSymptoms.getD symptomDraw.val "",
      duration := none }
  else if sanLoss ≥ 5 then
    { type := some .temporary,
      description := temporaryMadnessSymptoms.getD symptomDraw.val "",
      duration := some (durationDraw.val + 1) }
  else
    { type := none, description := "", duration := none }

/-- Madness update applied by `handleSanityCheck` and
`processAllCharactersSanCheck` (e.g. GamePlayScreen.tsx lines 862-870):
a non-null onset replaces the whole madness record (the spread includes
`duration` only when defined); a null onset keeps the character's
existing madness. -/
def applyMadnessResult (c : Character) (res : MadnessCheckResult) : Madness :=
  match res.type with
  | some t => { type := some t, description := res.description, duration := res.duration }
  | none => c.madness

/-- C4: madness onset — a loss at or above ceil(SANmax × 0.2) causes
indefinite madness with no duration, overriding any existing madness
state; otherwise a loss of at least 5 causes temporary madness whose
duration is a uniformly drawn integer in [1,6] (every value in [1,6] is
attainable by some draw); otherwise the existing madness state is left
unchanged. -/
theorem C4_madness_onset (c : Character) (loss : Int) (sd : Fin 8) (dd : Fin 6) :
    ((indefiniteMadnessThreshold c.san.max : Int) ≤ loss →
        (checkForMadness c loss sd dd).type = some MadnessType.indefinite ∧
        (checkForMadness c loss sd dd).duration = none ∧
        applyMadnessResult c (checkForMadness c loss sd dd) =
          { type := some MadnessType.indefinite,
            description := (checkForMadness c loss sd dd).description,
            duration := none }) ∧
    (loss < (indefiniteMadnessThreshold c.san.max : Int) → 5 ≤ loss →
        (checkForMadness c loss sd dd).type = some MadnessType.temporary ∧
        (checkForMadness c loss sd dd).duration = some (dd.val + 1) ∧
        1 ≤ dd.val + 1 ∧ dd.val + 1 ≤ 6 ∧
        (∀ k, 1 ≤ k → k ≤ 6 →
          ∃ dd2 : Fin 6, (checkForMadness c loss sd dd2).duration = some k)) ∧
    (loss < (indefiniteMadnessThreshold c.san.max : Int) → loss < 5 →
        applyMadnessResult c (checkForMadness c loss sd dd) = c.madness) ∧
    indefiniteMadnessThreshold c.san.max = (c.san.max + 4) / 5 := by
  refine ⟨fun h1 => ?_, fun h1 h2 => ?_, fun h1 h2 => ?_, rfl⟩
  · simp [checkForMadness, applyMadnessResult, ge_iff_le, h1]
  · have hn1 : ¬ ((indefiniteMadnessThreshold c.san.max : Int) ≤ loss) := not_le.mpr h1
    refine ⟨?_, ?_, ?_, ?_, ?_⟩
    · simp [checkForMadness, ge_iff_le, hn1, h2]
    · simp [checkForMadness, ge_iff_le, hn1, h2]
    · omega
    · have := dd.isLt; omega
    · intro k hk1 hk6
      refine ⟨⟨k - 1, by omega⟩, ?_⟩
      simp [checkForMadness, ge_iff_le, hn1, h2]
      omega
  · have hn1 : ¬ ((indefiniteMadnessThreshold c.san.max : Int) ≤ loss) := not_le.mpr h1
    have hn2 : ¬ ((5 : Int) ≤ loss) := not_le.mpr h2
    simp [checkForMadness, applyMadnessResult, ge_iff_le, hn1, hn2]

/-- A demonstration character: all attributes 13, SAN 50/50 (so the
indefinite-madness threshold is 10), no madness. -/
def demoChar : Character :=
  { id := "c1", name := "探索者", stats := ⟨13, 13, 13, 13, 13, 13, 13, 13⟩,
    hp := ⟨13, 13⟩, mp := ⟨13, 13⟩, san := ⟨50, 50⟩,
    skills := [("目星", 75)], madness := ⟨none, "", none⟩ }

/-- C4 witness: with SANmax 50 (threshold 10), a loss of 20 causes
indefinite madness with no duration; a loss of 6 causes temporary
madness lasting durationDraw+1 = 3 rounds; a loss of 1 leaves the
madness state untouched. -/
theorem C4_madness_onset_witness :
    (checkForMadness demoChar 20 ⟨0, by omega⟩ ⟨2, by omega⟩).type =
        some MadnessType.indefinite ∧
    (checkForMadness demoChar 20 ⟨0, by omega⟩ ⟨2, by omega⟩).duration = none ∧
    (checkForMadness demoChar 6 ⟨0, by omega⟩ ⟨2, by omega⟩).type =
        some MadnessType.temporary ∧
    (checkForMadness demoChar 6 ⟨0, by omega⟩ ⟨2, by omega⟩).duration = some 3 ∧
    applyMadnessResult demoChar (checkForMadness demoChar 1 ⟨0, by omega⟩ ⟨2, by omega⟩) =
      demoChar.madness := by
  have h20 := C4_madness_onset demoChar 20 ⟨0, by omega⟩ ⟨2, by omega⟩
  have h6 := C4_madness_onset demoChar 6 ⟨0, by omega⟩ ⟨2, by omega⟩
  have h1 := C4_madness_onset demoChar 1 ⟨0, by omega⟩ ⟨2, by omega⟩
  obtain ⟨hi, -, -, -⟩ := h20
  obtain ⟨-, ht, -, -⟩ := h6
  obtain ⟨-, -, hu, -⟩ := h1
  have hi' := hi (by decide)
  have ht' := ht (by decide) (by decide)
  have hu' := hu (by decide) (by decide)
  exact ⟨hi'.1, hi'.2.1, ht'.1, ht'.2.1, hu'⟩

/-! ## Party-wide sanity check (`handleSanityCheck` with target 'all',
GamePlayScreen.tsx lines 574-805)

The asynchronous dice modal is abstracted one level up here: each
non-fixed loss notation sent to `DiceRollModal` resolves to a single
number, supplied by an oracle list of modal results consumed in order. -/

/-- Split a string at every '/' (JS `roll.split('/')`), keeping empty
segments. -/
def splitSlash : List Char → List (List Char)
  | [] => [[]]
  | c :: rest =>
    if c = '/' then [] :: splitSlash rest
    else
      match splitSlash rest with
      | g :: gs => (c :: g) :: gs
      | [] => [[c]]

/-- The `rollParts` of `handleSanityCheck`: `roll.split('/')`. -/
def splitSlashStr (s : String) : List String :=
  (splitSlash s.toList).map (fun g => String.mk g)

/-- One dice-modal evaluation of a loss notation, as `handleSanityCheck`
performs it: `parseFixedOrRoll` first; a fixed value is used directly,
otherwise the modal is opened once and its single numeric result is the
next oracle entry. -/
def evalLossViaModal (s : String) (oracle : List Int) : Int × List Int :=
  if parseFixedOrRoll s ≥ 0 then (parseFixedOrRoll s, oracle)
  else
    match oracle with
    | [] => (0, [])
    | v :: rest => (v, rest)

/-- Did any party member succeed against the shared roll
(`results.some(r => r.isSuccess)`, success iff roll ≤ current SAN)? -/
def partyHasSuccess (chars : List Character) (firstRoll : Nat) : Bool :=
  chars.any (fun c => decide (firstRoll ≤ c.san.current))

/-- Did any party member fail against the shared roll? -/
def partyHasFailure (chars : List Character) (firstRoll : Nat) : Bool :=
  chars.any (fun c => !(decide (firstRoll ≤ c.san.current)))

/-- Branch-loss evaluation of the party-wide sanity check
(GamePlayScreen.tsx lines 661-803): with a "success/failure" notation
pair, each branch's notation is evaluated once — and only when that
branch is inhabited (success part first); with a single notation one
evaluation serves both branches.  Returns (successLoss, failureLoss,
unconsumed oracle). -/
def partySanCheckLosses (rollStr : String) (hasSuccess hasFailure : Bool)
    (oracle : List Int) : Int × Int × List Int :=
  match splitSlashStr rollStr with
  | [sPart, fPart] =>
    if hasSuccess && hasFailure then
      ((evalLossViaModal sPart oracle).1,
       (evalLossViaModal fPart (evalLossViaModal sPart oracle).2).1,
       (evalLossViaModal fPart (evalLossViaModal sPart oracle).2).2)
    else if hasSuccess then
      ((evalLossViaModal sPart oracle).1, 0, (evalLossViaModal sPart oracle).2)
    else
      (0, (evalLossViaModal fPart oracle).1, (evalLossViaModal fPart oracle).2)
  | _ =>
    ((evalLossViaModal rollStr oracle).1, (evalLossViaModal rollStr oracle).1,
     (evalLossViaModal rollStr oracle).2)

/-- Per-character update of `processAllCharactersSanCheck`
(GamePlayScreen.tsx lines 594-631): the character's branch loss applies,
new SAN is `Math.max(0, current − loss)`, and madness onset is checked
only when the applied loss is positive (a null onset keeps the existing
madness).  `draws` supplies the `Math.random` draws of the idx-th
character's madness check. -/
def applySanCheckToCharacter (successLoss failureLoss : Int)
    (draws : Nat → Fin 8 × Fin 6) (idx : Nat) (c : Character) (isSucc : Bool) :
    Character :=
  let actualLoss := if isSucc then successLoss else failureLoss
  let newSan := (max 0 ((c.san.current : Int) - actualLoss)).toNat
  let madnessResult :=
    if actualLoss > 0 then checkForMadness c actualLoss (draws idx).1 (draws idx).2
    else { type := none, description := "", duration := none }
  { c with san := { c.san with current := newSan },
           madness := applyMadnessResult c madnessResult }

/-- The party-wide branch of `handleSanityCheck` (GamePlayScreen.tsx
lines 651-805): one shared 1d100 roll decides success for every
character (success iff roll ≤ that character's current SAN), the two
branch losses are computed once by `partySanCheckLosses`, and every
character is updated with its own branch's loss.  Returns the updated
party and the unconsumed modal oracle. -/
def handleSanityCheckAll (chars : List Character) (firstRoll : Nat)
    (rollStr : String) (oracle : List Int) (draws : Nat → Fin 8 × Fin 6) :
    List Character × List Int :=
  (chars.enum.map (fun p =>
      applySanCheckToCharacter
        (partySanCheckLosses rollStr (partyHasSuccess chars firstRoll)
          (partyHasFailure chars firstRoll) oracle).1
        (partySanCheckLosses rollStr (partyHasSuccess chars firstRoll)
          (partyHasFailure chars firstRoll) oracle).2.1
        draws p.1 p.2 (decide (firstRoll ≤ p.2.san.current))),
   (partySanCheckLosses rollStr (partyHasSuccess chars firstRoll)
      (partyHasFailure chars firstRoll) oracle).2.2)

theorem evalLossViaModal_consume (s : String) (oracle : List Int) :
    oracle.length ≤ (evalLossViaModal s oracle).2.length + 1 := by
  unfold evalLossViaModal
  split_ifs
  · simp
  · cases oracle <;> simp

theorem partySanCheckLosses_consume (rollStr : String) (hS hF : Bool)
    (oracle : List Int) :
    oracle.length ≤ (partySanCheckLosses rollStr hS hF oracle).2.2.length + 2 := by
  have e0 := evalLossViaModal_consume rollStr oracle
  unfold partySanCheckLosses
  rcases h : splitSlashStr rollStr with - | ⟨a, - | ⟨b, - | ⟨c, rest⟩⟩⟩ <;>
    simp only
  · omega
  · omega
  · have e1 := evalLossViaModal_consume a oracle
    have e2 := evalLossViaModal_consume b (evalLossViaModal a oracle).2
    have e3 := evalLossViaModal_consume b oracle
    cases hS <;> cases hF <;> simp only [Bool.and_self, Bool.and_false,
      Bool.false_and, Bool.and_true, Bool.true_and, if_true, if_false,
      Bool.false_eq_true, reduceIte] <;> omega
  · omega

theorem enumFrom_map_proj {α β γ : Type} (F : Nat → α → β) (G : β → γ) (H : α → γ)
    (h : ∀ i a, G (F i a) = H a) :
    ∀ (n : Nat) (l : List α),
      ((List.enumFrom n l).map (fun p => F p.1 p.2)).map G = l.map H := by
  intro n l
  induction l generalizing n with
  | nil => rfl
  | cons a l ih => simp [List.enumFrom, h, ih]

/-- C5: in a party-wide sanity check every member's success or failure is
decided by the one shared percentile roll (success iff roll ≤ that
member's current SAN); the loss notation is evaluated at most once per
outcome branch — at most two dice-modal evaluations in total, however
many characters there are — and the resulting branch loss is applied
uniformly: each character's new SAN is max(0, current − loss) with the
same loss for every character of that branch. -/
theorem C5_party_sanity_check (chars : List Character) (firstRoll : Nat)
    (rollStr : String) (oracle : List Int) (draws : Nat → Fin 8 × Fin 6) :
    (handleSanityCheckAll chars firstRoll rollStr oracle draws).1.map
        (fun c => c.san.current) =
      chars.map (fun c =>
        (max 0 ((c.san.current : Int) -
          (if firstRoll ≤ c.san.current then
            (partySanCheckLosses rollStr (partyHasSuccess chars firstRoll)
              (partyHasFailure chars firstRoll) oracle).1
           else
            (partySanCheckLosses rollStr (partyHasSuccess chars firstRoll)
              (partyHasFailure chars firstRoll) oracle).2.1))).toNat) ∧
    oracle.length ≤
      (handleSanityCheckAll chars firstRoll rollStr oracle draws).2.length + 2 ∧
    (handleSanityCheckAll chars firstRoll rollStr oracle draws).1.length =
      chars.length := by
  refine ⟨?_, ?_, ?_⟩
  · unfold handleSanityCheckAll
    simp only [List.enum]
    exact enumFrom_map_proj
      (fun i c => applySanCheckToCharacter
        (partySanCheckLosses rollStr (partyHasSuccess chars firstRoll)
          (partyHasFailure chars firstRoll) oracle).1
        (partySanCheckLosses rollStr (partyHasSuccess chars firstRoll)
          (partyHasFailure chars firstRoll) oracle).2.1
        draws i c (decide (firstRoll ≤ c.san.current)))
      (fun c => c.san.current)
      (fun c =>
        (max 0 ((c.san.current : Int) -
          (if firstRoll ≤ c.san.current then
            (partySanCheckLosses rollStr (partyHasSuccess chars firstRoll)
              (partyHasFailure chars firstRoll) oracle).1
           else
            (partySanCheckLosses rollStr (partyHasSuccess chars firstRoll)
              (partyHasFailure chars firstRoll) oracle).2.1))).toNat)
      (fun i c => by
        simp only [applySanCheckToCharacter, decide_eq_true_eq])
      0 chars
  · exact partySanCheckLosses_consume rollStr _ _ oracle
  · simp [handleSanityCheckAll]

/-! ## Skill checks and the push-roll protocol (GamePlayScreen.tsx) -/

/-- Bracket cleaning of a requested skill name
(`skill.replace(/[〈〉]/g, '')` in `handleSkillCheck`). -/
def cleanSkillName (s : String) : String :=
  String.mk (s.toList.filter (fun c => c != '〈' && c != '〉'))

/-- Target of a skill check (`handleSkillCheck` line 381):
`character.skills[cleanedSkill] ?? 0`. -/
def skillCheckValue (c : Character) (skill : String) : Nat :=
  (lookupAssoc c.skills (cleanSkillName skill)).getD 0

/-- Outcome of a skill or stat check: a success is forwarded to the
narrator together with its roll result; a failure is stored as the
pending failed check, which makes the UI offer a push-roll. -/
inductive CheckOutcome
  | forwarded (value dice : Nat) (tier : Tier)
  | pushOffered (value dice : Nat) (tier : Tier)
deriving DecidableEq, Repr

/-- `handleSkillCheck` (GamePlayScreen.tsx lines 372-421): resolve the
roll against `skills[cleanedSkill] ?? 0`; a successful tier is sent to
the narrator, any other tier is stored as `lastFailedSkillCheck`. -/
def handleSkillCheck (c : Character) (skill : String) (diceRoll : Nat) : CheckOutcome :=
  if isSuccess (skillCheckTier diceRoll (skillCheckValue c skill)) then
    .forwarded (skillCheckValue c skill) diceRoll
      (skillCheckTier diceRoll (skillCheckValue c skill))
  else
    .pushOffered (skillCheckValue c skill) diceRoll
      (skillCheckTier diceRoll (skillCheckValue c skill))

/-- The `lastFailedSkillCheck` record (GamePlayScreen.tsx line 160). -/
structure FailedCheck where
  characterId : String
  skill : String
  value : Nat
  dice : Nat
  result : Tier
deriving DecidableEq, Repr

/-- A roll result forwarded to the narrator with `sendPlayerAction`
(the fields of its `rollResult` argument that the protocol claims are
about: checked skill, target value, die, tier). -/
structure RollResult where
  skill : String
  value : Nat
  dice : Nat
  result : Tier
deriving DecidableEq, Repr

/-- Push-roll-relevant component state of `GamePlayScreen`: the pending
failed check and the stream of roll results sent to the narrator. -/
structure PushState where
  lastFailedSkillCheck : Option FailedCheck
  forwarded : List RollResult
deriving DecidableEq, Repr

/-- State effect of a skill check (`handleSkillCheck` lines 398-418):
success forwards the result and leaves no pending check; failure stores
the failed check and forwards nothing. -/
def skillCheckStep (c : Character) (skill : String) (diceRoll : Nat)
    (st : PushState) : PushState :=
  match handleSkillCheck c skill diceRoll with
  | .forwarded v d t =>
      { lastFailedSkillCheck := none,
        forwarded := st.forwarded ++ [⟨cleanSkillName skill, v, d, t⟩] }
  | .pushOffered v d t =>
      { lastFailedSkillCheck := some ⟨c.id, cleanSkillName skill, v, d, t⟩,
        forwarded := st.forwarded }

/-- `handleDeclinePushRoll` (GamePlayScreen.tsx lines 475-498): guarded
on a pending failed check; forwards the stored result unchanged (same
skill, target value, dice and tier) and clears the pending check. -/
def declinePushRoll (st : PushState) : PushState :=
  match st.lastFailedSkillCheck with
  | none => st
  | some f =>
      { lastFailedSkillCheck := none,
        forwarded := st.forwarded ++ [⟨f.skill, f.value, f.dice, f.result⟩] }

/-- `handlePushRoll` (GamePlayScreen.tsx lines 500-543): guarded on a
pending failed check; re-rolls once against the stored target `value`,
always forwards the new outcome (success or failure alike), and clears
the pending check so no further push is offered. -/
def pushRoll (st : PushState) (diceRoll : Nat) : PushState :=
  match st.lastFailedSkillCheck with
  | none => st
  | some f =>
      { lastFailedSkillCheck := none,
        forwarded := st.forwarded ++
          [⟨f.skill, f.value, diceRoll, pushRollTier diceRoll f.value⟩] }

/-- C10: a skill check for a skill name absent from the character's
skills map resolves against target 0: rolls 2-95 are Failures, rolls
96-99 are Fumbles, roll 100 is Fumble(00), yet a roll of exactly 1 is a
Critical that counts as a success and is forwarded to the narrator. -/
theorem C10_missing_skill (c : Character) (skill : String) (roll : Nat)
    (habs : lookupAssoc c.skills (cleanSkillName skill) = none) :
    (2 ≤ roll → roll ≤ 95 →
        handleSkillCheck c skill roll = .pushOffered 0 roll .failure) ∧
    (96 ≤ roll → roll ≤ 99 →
        handleSkillCheck c skill roll = .pushOffered 0 roll .fumble) ∧
    (100 ≤ roll → handleSkillCheck c skill roll = .pushOffered 0 roll .fumble00) ∧
    (roll = 1 →
        handleSkillCheck c skill roll = .forwarded 0 1 .critical ∧
        isSuccess Tier.critical = true) := by
  have hval : skillCheckValue c skill = 0 := by
    simp [skillCheckValue, habs]
  refine ⟨fun hlo hhi => ?_, fun hlo hhi => ?_, fun hlo => ?_, fun h1 => ?_⟩
  · have ht : skillCheckTier roll 0 = Tier.failure := by
      rw [skillCheckTier_eq_specResolve]
      unfold specResolve
      split_ifs <;> first | rfl | (exfalso; omega)
    simp [handleSkillCheck, hval, ht, isSuccess]
  · have ht : skillCheckTier roll 0 = Tier.fumble := by
      rw [skillCheckTier_eq_specResolve]
      unfold specResolve
      split_ifs <;> first | rfl | (exfalso; omega)
    simp [handleSkillCheck, hval, ht, isSuccess]
  · have ht : skillCheckTier roll 0 = Tier.fumble00 := by
      rw [skillCheckTier_eq_specResolve]
      unfold specResolve
      split_ifs <;> first | rfl | (exfalso; omega)
    simp [handleSkillCheck, hval, ht, isSuccess]
  · subst h1
    have ht : skillCheckTier 1 0 = Tier.critical := by
      rw [skillCheckTier_eq_specResolve]; rfl
    exact ⟨by simp [handleSkillCheck, hval, ht, isSuccess], rfl⟩

/-- C10 witness: `demoChar` has no skill named "x", so a roll of 1
forwards a Critical while rolls 50, 97 and 100 fail into the push offer
with Failure, Fumble and Fumble(00) respectively. -/
theorem C10_missing_skill_witness :
    handleSkillCheck demoChar "x" 1 = .forwarded 0 1 .critical ∧
    handleSkillCheck demoChar "x" 50 = .pushOffered 0 50 .failure ∧
    handleSkillCheck demoChar "x" 97 = .pushOffered 0 97 .fumble ∧
    handleSkillCheck demoChar "x" 100 = .pushOffered 0 100 .fumble00 := by
  have habs : lookupAssoc demoChar.skills (cleanSkillName "x") = none := by decide
  exact ⟨((C10_missing_skill demoChar "x" 1 habs).2.2.2 rfl).1,
    (C10_missing_skill demoChar "x" 50 habs).1 (by omega) (by omega),
    (C10_missing_skill demoChar "x" 97 habs).2.1 (by omega) (by omega),
    (C10_missing_skill demoChar "x" 100 habs).2.2.1 (by omega)⟩

/-- C7: with a failed check pending, declining the push forwards the
original failure result unchanged (same skill, target, dice and tier)
and clears the pending check; accepting re-rolls exactly once against
the same stored target and forwards whichever outcome results, with the
pending check cleared regardless of that outcome, so no further push is
ever offered; and it is exactly a non-success check that creates the
pending failed check. -/
theorem C7_push_roll_protocol (st : PushState) (f : FailedCheck) (roll : Nat)
    (h : st.lastFailedSkillCheck = some f) :
    declinePushRoll st =
      { lastFailedSkillCheck := none,
        forwarded := st.forwarded ++ [⟨f.skill, f.value, f.dice, f.result⟩] } ∧
    pushRoll st roll =
      { lastFailedSkillCheck := none,
        forwarded := st.forwarded ++
          [⟨f.skill, f.value, roll, pushRollTier roll f.value⟩] } ∧
    (pushRoll st roll).lastFailedSkillCheck = none ∧
    (∀ c skill d st',
        isSuccess (skillCheckTier d (skillCheckValue c skill)) = false →
        (skillCheckStep c skill d st').lastFailedSkillCheck =
          some ⟨c.id, cleanSkillName skill, skillCheckValue c skill, d,
                skillCheckTier d (skillCheckValue c skill)⟩) := by
  refine ⟨by simp [declinePushRoll, h], by simp [pushRoll, h],
    by simp [pushRoll, h], fun c skill d st' hfail => ?_⟩
  simp [skillCheckStep, handleSkillCheck, hfail]

/-- C7 witness: a concrete pending failed check (target 40, dice 77,
Failure): declining forwards it unchanged; pushing with a roll of 30
forwards a Regular success against the same target 40 and leaves no
pending check. -/
theorem C7_push_roll_protocol_witness :
    declinePushRoll ⟨some ⟨"c1", "目星", 40, 77, .failure⟩, []⟩ =
      ⟨none, [⟨"目星", 40, 77, .failure⟩]⟩ ∧
    pushRoll ⟨some ⟨"c1", "目星", 40, 77, .failure⟩, []⟩ 30 =
      ⟨none, [⟨"目星", 40, 30, pushRollTier 30 40⟩]⟩ ∧
    (pushRoll ⟨some ⟨"c1", "目星", 40, 77, .failure⟩, []⟩ 30).lastFailedSkillCheck =
      none := by
  have h := C7_push_roll_protocol ⟨some ⟨"c1", "目星", 40, 77, .failure⟩, []⟩
    ⟨"c1", "目星", 40, 77, .failure⟩ 30 rfl
  exact ⟨h.1, h.2.1, h.2.2.1⟩

/-! ## Character creation (CharacterCreationScreen.tsx)

The tables `INITIAL_SKILLS` and `DYNAMIC_BASE_SKILLS` and the name list
`ALL_SKILLS` live in constants.ts, which is not among the embedded
sources, so they are abstract parameters of every creation operation.
Creation-side skill totals are integers: imported or user-entered
custom-skill base values are not range-checked by the source. -/

/-- A user-defined custom skill (`CustomSkill` in types.ts, sans id and
category, which no embedded computation reads). -/
structure CustomSkill where
  name : String
  baseValue : Int
deriving DecidableEq, Repr

/-- `getBaseSkillValue` (CharacterCreationScreen.tsx lines 48-61): the
dynamic DEX/EDU formula when the skill has one, else the custom skill's
declared base, else the static table entry, else 0. -/
def getBaseSkillValue (dynamicBaseSkills : String → Option (Stats → Int))
    (initialSkills : String → Option Int) (skillName : String) (stats : Stats)
    (customSkills : List CustomSkill) : Int :=
  match dynamicBaseSkills skillName with
  | some f => f stats
  | none =>
    match customSkills.find? (fun s => s.name == skillName) with
    | some cs => cs.baseValue
    | none => (initialSkills skillName).getD 0

/-- One row of the allocation table: occupation and interest points. -/
structure SkillAllocation where
  occ : Int
  int : Int
deriving DecidableEq, Repr

/-- Allocation lookup with the `|| { occ: 0, int: 0 }` default used
throughout the creation screen. -/
def lookupAlloc (allocs : List (String × SkillAllocation)) (name : String) :
    SkillAllocation :=
  (lookupAssoc allocs name).getD ⟨0, 0⟩

/-- Creation-screen character state (the fields the embedded creation
operations read or write; skills as integers). -/
structure CCharacter where
  stats : Stats
  hp : Resource
  mp : Resource
  san : Resource
  skills : List (String × Int)
  customSkills : List CustomSkill
deriving DecidableEq, Repr

/-- Creation-screen component state: the active character together with
its allocation table (the source of truth for the point split). -/
structure CreationState where
  char : CCharacter
  allocations : List (String × SkillAllocation)
deriving DecidableEq, Repr

/-- Which budget an allocation write touches ('occ' | 'int'). -/
inductive AllocKind
  | occ
  | int
deriving DecidableEq, Repr

/-- `createNewCharacter` (lines 15-34) plus `addNewCharacter`'s all-zero
allocation rows (rendered by the zero-defaulting lookup as the empty
table): all attributes 10, HP/MP 10/10, SAN 50/50, no skills. -/
def createNewCharacter : CreationState :=
  { char := { stats := ⟨10, 10, 10, 10, 10, 10, 10, 10⟩,
              hp := ⟨10, 10⟩, mp := ⟨10, 10⟩, san := ⟨50, 50⟩,
              skills := [], customSkills := [] },
    allocations := [] }

/-- The allocation row written by `handleSkillAllocation`: the entered
points are clamped at 0 (`if (value < 0) value = 0`) and stored into the
chosen field, the other field keeping its previous points. -/
def newAllocRow (old : SkillAllocation) (kind : AllocKind) (value : Int) :
    SkillAllocation :=
  match kind with
  | .occ => { old with occ := if value < 0 then 0 else value }
  | .int => { old with int := if value < 0 then 0 else value }

/-- `handleSkillAllocation` (CharacterCreationScreen.tsx lines 722-735):
write the allocation row and store the skill total
`base + occ + int` — with no 99 cap. -/
def handleSkillAllocation (dyn : String → Option (Stats → Int))
    (init : String → Option Int) (st : CreationState) (skillName : String)
    (kind : AllocKind) (value : Int) : CreationState :=
  { char := { st.char with
      skills := updateAssoc st.char.skills skillName
        (getBaseSkillValue dyn init skillName st.char.stats st.char.customSkills
          + (newAllocRow (lookupAlloc st.allocations skillName) kind value).occ
          + (newAllocRow (lookupAlloc st.allocations skillName) kind value).int) },
    allocations := updateAssoc st.allocations skillName
      (newAllocRow (lookupAlloc st.allocations skillName) kind value) }

/-- The skill-recomputation loop of `handleStatUpdate` (lines 662-668):
every skill total becomes `base + occ + int` over the new stats, with no
99 cap. -/
def recomputeSkills (dyn : String → Option (Stats → Int))
    (init : String → Option Int) (stats : Stats)
    (customSkills : List CustomSkill) (allocs : List (String × SkillAllocation))
    (names : List String) (sk : List (String × Int)) : List (String × Int) :=
  names.foldl (fun acc n =>
    updateAssoc acc n
      (getBaseSkillValue dyn init n stats customSkills
        + (lookupAlloc allocs n).occ + (lookupAlloc allocs n).int)) sk

/-- The skill-recomputation loop of `handleRollAllStats` (lines 703-709):
like `recomputeSkills` but capped at 99 (`total > 99 ? 99 : total`). -/
def recomputeSkillsCapped (dyn : String → Option (Stats → Int))
    (init : String → Option Int) (stats : Stats)
    (customSkills : List CustomSkill) (allocs : List (String × SkillAllocation))
    (names : List String) (sk : List (String × Int)) : List (String × Int) :=
  names.foldl (fun acc n =>
    updateAssoc acc n
      (if getBaseSkillValue dyn init n stats customSkills
            + (lookupAlloc allocs n).occ + (lookupAlloc allocs n).int > 99
       then 99
       else getBaseSkillValue dyn init n stats customSkills
            + (lookupAlloc allocs n).occ + (lookupAlloc allocs n).int)) sk

/-- `handleStatUpdate` (CharacterCreationScreen.tsx lines 651-678): set
the attribute; recompute HP max = ceil((CON+SIZ)/2), MP max = POW and
SAN max = POW×5, resetting current HP/MP to the new max and clamping
current SAN down (never up); when DEX or EDU changed, recompute every
skill total (over `ALL_SKILLS` plus the custom skills) uncapped. -/
def handleStatUpdate (dyn : String → Option (Stats → Int))
    (init : String → Option Int) (allSkillNames : List String)
    (st : CreationState) (statName : StatName) (value : Nat) : CreationState :=
  { char := { st.char with
      stats := st.char.stats.set statName value,
      hp := ⟨((st.char.stats.set statName value).con
                + (st.char.stats.set statName value).siz + 1) / 2,
             ((st.char.stats.set statName value).con
                + (st.char.stats.set statName value).siz + 1) / 2⟩,
      mp := ⟨(st.char.stats.set statName value).pow,
             (st.char.stats.set statName value).pow⟩,
      san := ⟨if st.char.san.current > (st.char.stats.set statName value).pow * 5
              then (st.char.stats.set statName value).pow * 5
              else st.char.san.current,
             (st.char.stats.set statName value).pow * 5⟩,
      skills :=
        if statName = StatName.DEX ∨ statName = StatName.EDU then
          recomputeSkills dyn init (st.char.stats.set statName value)
            st.char.customSkills st.allocations
            (allSkillNames ++ st.char.customSkills.map (fun cs => cs.name))
            st.char.skills
        else st.char.skills },
    allocations := st.allocations }

/-- `handleRollAllStats` (CharacterCreationScreen.tsx lines 687-719):
all eight attributes replaced by their rolled values (`rolled` collects
the eight `parseAndRoll` draws), derived resources recomputed as in
`handleStatUpdate`, and every skill total recomputed capped at 99. -/
def handleRollAllStats (dyn : String → Option (Stats → Int))
    (init : String → Option Int) (allSkillNames : List String)
    (st : CreationState) (rolled : Stats) : CreationState :=
  { char := { st.char with
      stats := rolled,
      hp := ⟨(rolled.con + rolled.siz + 1) / 2, (rolled.con + rolled.siz + 1) / 2⟩,
      mp := ⟨rolled.pow, rolled.pow⟩,
      san := ⟨if st.char.san.current > rolled.pow * 5
              then rolled.pow * 5 else st.char.san.current,
             rolled.pow * 5⟩,
      skills := recomputeSkillsCapped dyn init rolled st.char.customSkills
        st.allocations (allSkillNames ++ st.char.customSkills.map (fun cs => cs.name))
        st.char.skills },
    allocations := st.allocations }

/-- The occupation-point budget of `derivedData`
(CharacterCreationScreen.tsx line 962): EDU × 20. -/
def derivedOccupationPoints (stats : Stats) : Nat := stats.edu * 20

/-- The interest-point budget of `derivedData` (line 963): INT × 10. -/
def derivedInterestPoints (stats : Stats) : Nat := stats.intel * 10

theorem lookupAssoc_foldl_updateAssoc {α : Type} (f : String → α)
    (names : List String) (sk : List (String × α)) (n : String) :
    lookupAssoc (names.foldl (fun acc m => updateAssoc acc m (f m)) sk) n =
      if n ∈ names then some (f n) else lookupAssoc sk n := by
  induction names generalizing sk with
  | nil => simp
  | cons m rest ih =>
      simp only [List.foldl_cons]
      rw [ih]
      by_cases hn : n ∈ rest
      · simp [hn]
      · by_cases hnm : n = m
        · subst hnm
          simp [hn, lookupAssoc_updateAssoc_self]
        · simp [hn, hnm, lookupAssoc_updateAssoc_ne _ _ _ _ hnm]

/-- C1 counterexample: allocating 80 interest points to a skill of base
25 stores the uncapped total 105 on the character — the claim's 99 cap
is absent from `handleSkillAllocation`. -/
theorem C1_counterexample :
    lookupAssoc ((handleSkillAllocation (fun _ => none) (fun _ => some 25)
        createNewCharacter "a" AllocKind.int 80).char.skills) "a" = some 105 ∧
    ¬ ((105 : Int) ≤ 99) :=
  ⟨by decide, by decide⟩

/-- C1 amended: after a skill-point allocation call the stored total is
exactly base + occupationPoints + interestPoints with no 99 cap — it
never falls below the skill's base (allocations are clamped at 0) but
can exceed 99 — and a DEX/EDU attribute update likewise recomputes every
affected skill's total to the same uncapped formula over the new stats.
(The 99 cap exists only in the roll-all-stats, auto-allocate and import
paths.) -/
theorem C1_allocation_total (dyn : String → Option (Stats → Int))
    (init : String → Option Int) (st : CreationState) (name : String)
    (kind : AllocKind) (value : Int)
    (hocc : 0 ≤ (lookupAlloc st.allocations name).occ)
    (hint : 0 ≤ (lookupAlloc st.allocations name).int) :
    lookupAssoc (handleSkillAllocation dyn init st name kind value).char.skills
        name =
      some (getBaseSkillValue dyn init name st.char.stats st.char.customSkills
        + (lookupAlloc (handleSkillAllocation dyn init st name kind value).allocations
            name).occ
        + (lookupAlloc (handleSkillAllocation dyn init st name kind value).allocations
            name).int) ∧
    getBaseSkillValue dyn init name st.char.stats st.char.customSkills ≤
      getBaseSkillValue dyn init name st.char.stats st.char.customSkills
        + (lookupAlloc (handleSkillAllocation dyn init st name kind value).allocations
            name).occ
        + (lookupAlloc (handleSkillAllocation dyn init st name kind value).allocations
            name).int ∧
    (∀ names statName v n,
        n ∈ names ++ st.char.customSkills.map (fun cs => cs.name) →
        (statName = StatName.DEX ∨ statName = StatName.EDU) →
        lookupAssoc (handleStatUpdate dyn init names st statName v).char.skills n =
          some (getBaseSkillValue dyn init n (st.char.stats.set statName v)
              st.char.customSkills
            + (lookupAlloc st.allocations n).occ
            + (lookupAlloc st.allocations n).int)) := by
  have hrow :
      lookupAlloc (handleSkillAllocation dyn init st name kind value).allocations
          name =
        newAllocRow (lookupAlloc st.allocations name) kind value := by
    simp [handleSkillAllocation, lookupAlloc, lookupAssoc_updateAssoc_self]
  refine ⟨?_, ?_, ?_⟩
  · rw [hrow]
    simp [handleSkillAllocation, lookupAssoc_updateAssoc_self]
  · rw [hrow]
    have h1 : 0 ≤ (newAllocRow (lookupAlloc st.allocations name) kind value).occ := by
      cases kind
      · simp only [newAllocRow]
        split_ifs <;> omega
      · simpa [newAllocRow] using hocc
    have h2 : 0 ≤ (newAllocRow (lookupAlloc st.allocations name) kind value).int := by
      cases kind
      · simpa [newAllocRow] using hint
      · simp only [newAllocRow]
        split_ifs <;> omega
    omega
  · intro names statName v n hmem hDE
    simp only [handleStatUpdate, if_pos hDE]
    unfold recomputeSkills
    rw [lookupAssoc_foldl_updateAssoc, if_pos hmem]

/-- C1 witness: on a fresh character (allocation rows all zero), writing
80 interest points to skill "a" of base 25 stores 25 + 0 + 80, and a DEX
update recomputes "a" to 25 + 0 + 0 over the new stats. -/
theorem C1_allocation_total_witness :
    lookupAssoc ((handleSkillAllocation (fun _ => none) (fun _ => some 25)
        createNewCharacter "a" AllocKind.int 80).char.skills) "a" =
      some (25 + 0 + 80) ∧
    lookupAssoc ((handleStatUpdate (fun _ => none) (fun _ => some 25) ["a"]
        createNewCharacter StatName.DEX 14).char.skills) "a" =
      some (25 + 0 + 0) := by
  have h := C1_allocation_total (fun _ => none) (fun _ => some 25)
      createNewCharacter "a" AllocKind.int 80 (by decide) (by decide)
  refine ⟨?_, ?_⟩
  · rw [h.1]; decide
  · rw [h.2.2 ["a"] StatName.DEX 14 "a" (by decide) (Or.inl rfl)]; decide

theorem natCeilHalf (n : Nat) : (((n + 1) / 2 : Nat) : ℤ) = ⌈(n : ℚ) / 2⌉ := by
  set k := (n + 1) / 2 with hk
  have h1 : n ≤ 2 * k := by omega
  have h2 : 2 * k ≤ n + 1 := by omega
  have h1' : (n : ℚ) ≤ 2 * (k : ℚ) := by exact_mod_cast h1
  have h2' : 2 * (k : ℚ) ≤ (n : ℚ) + 1 := by exact_mod_cast h2
  symm
  rw [Int.ceil_eq_iff]
  rw [Int.cast_natCast]
  constructor
  · linarith
  · linarith

/-- The eight attribute keys, in `Object.keys(stats)` order. -/
def allStatNames : List StatName :=
  [.STR, .CON, .POW, .DEX, .APP, .SIZ, .INT, .EDU]

/-- A fresh character whose eight attributes are each set to 13 through
`handleStatUpdate` (with empty skill tables). -/
def char13 : CreationState :=
  allStatNames.foldl
    (fun s p => handleStatUpdate (fun _ => none) (fun _ => none) [] s p 13)
    createNewCharacter

/-- C6: after any attribute update the derived values are
HP max = ceil((CON+SIZ)/2), MP max = POW, SAN max = POW×5,
occupation points = EDU×20, interest points = INT×10; in particular the
all-13 character has HP max 13, MP max 13, SAN max 65, occupation
points 260, interest points 130. -/
theorem C6_derived_values (dyn : String → Option (Stats → Int))
    (init : String → Option Int) (names : List String) (st : CreationState)
    (stat : StatName) (v : Nat) :
    (((handleStatUpdate dyn init names st stat v).char.hp.max : ℤ) =
      ⌈(((handleStatUpdate dyn init names st stat v).char.stats.con
          + (handleStatUpdate dyn init names st stat v).char.stats.siz : Nat) : ℚ)
        / 2⌉) ∧
    (handleStatUpdate dyn init names st stat v).char.mp.max =
      (handleStatUpdate dyn init names st stat v).char.stats.pow ∧
    (handleStatUpdate dyn init names st stat v).char.san.max =
      (handleStatUpdate dyn init names st stat v).char.stats.pow * 5 ∧
    derivedOccupationPoints (handleStatUpdate dyn init names st stat v).char.stats =
      (handleStatUpdate dyn init names st stat v).char.stats.edu * 20 ∧
    derivedInterestPoints (handleStatUpdate dyn init names st stat v).char.stats =
      (handleStatUpdate dyn init names st stat v).char.stats.intel * 10 ∧
    char13.char.hp.max = 13 ∧ char13.char.mp.max = 13 ∧
    char13.char.san.max = 65 ∧
    derivedOccupationPoints char13.char.stats = 260 ∧
    derivedInterestPoints char13.char.stats = 130 :=
  ⟨natCeilHalf _, rfl, rfl, rfl, rfl, by decide, by decide, by decide,
   by decide, by decide⟩

/-- C9: any single-attribute update (manual entry or roll) and the
roll-all-stats operation set current HP and MP equal to the new maxima —
discarding any previously depleted or independently set current values —
while current SAN is only clamped down to the new SAN max and never
raised. -/
theorem C9_current_resource_frame (dyn : String → Option (Stats → Int))
    (init : String → Option Int) (names : List String) (st : CreationState)
    (stat : StatName) (v : Nat) (rolled : Stats) :
    ((handleStatUpdate dyn init names st stat v).char.hp.current =
      (handleStatUpdate dyn init names st stat v).char.hp.max) ∧
    ((handleStatUpdate dyn init names st stat v).char.mp.current =
      (handleStatUpdate dyn init names st stat v).char.mp.max) ∧
    ((handleStatUpdate dyn init names st stat v).char.san.current =
      min st.char.san.current
        (handleStatUpdate dyn init names st stat v).char.san.max) ∧
    ((handleStatUpdate dyn init names st stat v).char.san.current ≤
      st.char.san.current) ∧
    ((handleRollAllStats dyn init names st rolled).char.hp.current =
      (handleRollAllStats dyn init names st rolled).char.hp.max) ∧
    ((handleRollAllStats dyn init names st rolled).char.mp.current =
      (handleRollAllStats dyn init names st rolled).char.mp.max) ∧
    ((handleRollAllStats dyn init names st rolled).char.san.current =
      min st.char.san.current
        (handleRollAllStats dyn init names st rolled).char.san.max) ∧
    ((handleRollAllStats dyn init names st rolled).char.san.current ≤
      st.char.san.current) := by
  refine ⟨rfl, rfl, ?_, ?_, rfl, rfl, ?_, ?_⟩ <;>
  · simp only [handleStatUpdate, handleRollAllStats]
    split_ifs <;> omega

end TRPG
